import Mathlib

/-!
Verification of the deduplication and run-orchestration core of the
news-posting pipeline (`app.py`).

Shallow embedding choices:
* Python strings are Lean `String`s; `len`, slicing and stripping act on
  `String.data : List Char`, matching Python's code-point semantics.
* The seen-set record file is `Option (List String)`: `none` when the file
  does not exist, otherwise the list of its lines (newlines stripped).
* Network collaborators are parameters: redirect resolution (`final_url`)
  and hashing (`sha`) are abstract `String → String` functions; the OpenAI
  endpoint is a function from attempt index to `(status, content)`; the X
  publish endpoint is a function from call index to an HTTP status.
* `requests` exceptions and `raise RuntimeError` are modelled with
  `Except` / explicit completion flags; `time.sleep` durations are
  recorded in a trace list.
-/

namespace ReiwaKawaraban

/-- A raw feed item as built in `main` step 1: `{"title", "summary", "link"}`. -/
structure Item where
  title : String
  summary : String
  link : String
deriving DecidableEq

/-- Python `str.strip()`: remove leading and trailing whitespace. -/
def pyStrip (s : String) : String :=
  String.mk (((s.data.dropWhile Char.isWhitespace).reverse.dropWhile Char.isWhitespace).reverse)

/-- `load_seen`: reads the record file into a set.  Missing file (`none`)
yields the empty set; otherwise `set(x.strip() for x in f if x.strip())`. -/
def load_seen : Option (List String) → Finset String
  | none => ∅
  | some lines => ((lines.map pyStrip).filter (· ≠ "")).toFinset

/-- `save_seen`: opens the record file in append mode (creating it when
absent) and writes one line per hash, after the existing lines. -/
def save_seen (file : Option (List String)) (hashes : List String) : Option (List String) :=
  some (file.getD [] ++ hashes)

/-- `clip_len`: `txt if len(txt) <= maxlen else (txt[: maxlen - 1] + "…")`. -/
def clip_len (txt : String) (maxlen : Nat) : String :=
  if txt.data.length ≤ maxlen then txt
  else String.mk (txt.data.take (maxlen - 1) ++ ['…'])

/-- The length guard of `main` step 3: `tweet = draft;
if len(tweet) > 280: tweet = clip_len(tweet, 280)`. -/
def finalizeTweet (draft : String) : String :=
  if draft.data.length > 280 then clip_len draft 280 else draft

/-- The retry loop of `call_openai`, with `attempt` the current index of
`range(3)` and `remaining` the iterations left.  Each attempt reads the
response `(status, content)` for its index; status 429 sleeps
`5 * (attempt + 1)` seconds (recorded in the returned trace) and retries;
any other status in 400..599 raises (`r.raise_for_status()`); otherwise the
stripped message content is returned.  When the loop exhausts, the last
response's `raise_for_status()` runs (that response was a 429). -/
def runAttempts (responses : Nat → Nat × String) : Nat → Nat → Except Nat String × List Nat
  | attempt, 0 => (Except.error (responses (attempt - 1)).1, [])
  | attempt, remaining + 1 =>
    let st := (responses attempt).1
    if st = 429 then
      let p := runAttempts responses (attempt + 1) remaining
      (p.1, 5 * (attempt + 1) :: p.2)
    else if 400 ≤ st ∧ st ≤ 599 then (Except.error st, [])
    else (Except.ok (pyStrip (responses attempt).2), [])

/-- `call_openai` as a function of the sequence of endpoint responses:
returns either the generated text or the raising HTTP status, together
with the list of sleep durations performed. -/
def call_openai (responses : Nat → Nat × String) : Except Nat String × List Nat :=
  runAttempts responses 0 3

/-- `post_to_x` succeeds exactly when the response status is 200 or 201;
anything else raises `RuntimeError`. -/
def post_ok (status : Nat) : Bool :=
  status == 200 || status == 201

/-- The selection loop of `main` step 2, carrying `count = len(picked)` so
far.  For each item, the fingerprint is `sha(final_url(link))`; items whose
fingerprint is in the seen set are skipped; otherwise the item is picked and
the loop breaks once `len(picked) >= budget`. -/
def selectGo (fp : Item → String) (seen : Finset String) (budget : Int) :
    Nat → List Item → List Item
  | _, [] => []
  | count, it :: rest =>
    if fp it ∈ seen then
      selectGo fp seen budget count rest
    else if ((count : Int) + 1) ≥ budget then
      [it]
    else
      it :: selectGo fp seen budget (count + 1) rest

/-- `main` step 2 as a function: pick the unseen items, in feed order, up to
`POST_SLOTS_PER_RUN = budget`, given the redirect resolver and hash
collaborators. -/
def select (final_url sha : String → String) (seen : Finset String) (budget : Int)
    (items : List Item) : List Item :=
  selectGo (fun it => sha (final_url it.link)) seen budget 0 items

/-- Outcome of the publish loop of `main` step 3. -/
structure LoopOut where
  newHashes : List String
  posted : List String
  completed : Bool
deriving DecidableEq

/-- The publish loop of `main` step 3 over the hashes of the picked items:
for the `i`-th item a draft `gen i` is generated, finalized, and passed to
`post_to_x`; on a non-success status the `RuntimeError` aborts the loop
(`completed = false`); on success the item's hash is appended to
`new_hashes` and the loop continues.  `posted` records every text handed to
the publish call. -/
def publishLoop (gen : Nat → String) (status : Nat → Nat) :
    Nat → List String → LoopOut
  | _, [] => ⟨[], [], true⟩
  | i, h :: rest =>
    let tweet := finalizeTweet (gen i)
    if post_ok (status i) then
      let o := publishLoop gen status (i + 1) rest
      ⟨h :: o.newHashes, tweet :: o.posted, o.completed⟩
    else
      ⟨[], [tweet], false⟩

/-- Outcome of steps 3–4 of `main`: the record file afterwards, the list of
`save_seen` invocations (each with its argument), whether the run completed,
and how many items were actually published. -/
structure RunResult where
  file : Option (List String)
  saves : List (List String)
  completed : Bool
  publishedCount : Nat
deriving DecidableEq

/-- Steps 3–4 of `main`: run the publish loop over the picked hashes; only
when it completes without raising is `save_seen` invoked — once, with
exactly the accumulated `new_hashes`, and only if that list is nonempty. -/
def mainRun (gen : Nat → String) (status : Nat → Nat) (hashes : List String)
    (file : Option (List String)) : RunResult :=
  let o := publishLoop gen status 0 hashes
  if o.completed then
    if o.newHashes = [] then ⟨file, [], true, o.newHashes.length⟩
    else ⟨save_seen file o.newHashes, [o.newHashes], true, o.newHashes.length⟩
  else ⟨file, [], false, o.newHashes.length⟩

/-! ## Theorems -/

/-- Claim C7: when no backing Seen-Set record exists, `load_seen` returns the
empty set rather than raising an error. -/
theorem claim_C7_load_missing : load_seen none = ∅ := rfl

/-- Claim C6: Seen-Set round-trip — for every prior record state, loading
after appending fingerprints `[f1, f2]` yields the first load's set united
with `{f1, f2}`, with set semantics deduplicating any repeats.  Fingerprints
are nonempty whitespace-free hex strings, captured by the `pyStrip`-fixity
and nonemptiness hypotheses. -/
theorem claim_C6_round_trip (file : Option (List String)) (f1 f2 : String)
    (h1 : pyStrip f1 = f1) (h1' : f1 ≠ "") (h2 : pyStrip f2 = f2) (h2' : f2 ≠ "") :
    load_seen (save_seen file [f1, f2]) = load_seen file ∪ {f1, f2} := by
  cases file with
  | none =>
    simp [load_seen, save_seen, h1, h2, h1', h2', List.filter]
  | some lines =>
    simp only [load_seen, save_seen, Option.getD_some, List.map_append,
      List.filter_append, List.toFinset_append]
    congr 1
    simp [h1, h2, h1', h2', List.filter]

/-- Claim C6 witness: round-trip at a concrete record and fingerprints. -/
theorem claim_C6_round_trip_witness :
    load_seen (save_seen (some ["a1", "b2"]) ["b2", "c3"]) =
      load_seen (some ["a1", "b2"]) ∪ {"b2", "c3"} :=
  claim_C6_round_trip (some ["a1", "b2"]) "b2" "c3" (by decide) (by decide)
    (by decide) (by decide)

/-- Claim C5: a draft longer than 280 characters is finalized to exactly 280
characters, being its first 279 characters followed by the truncation
marker `…` as final character; a draft at or under 280 characters is
returned unchanged. -/
theorem claim_C5_truncation (t : String) :
    (t.data.length > 280 →
      (finalizeTweet t).data.length = 280 ∧
      (finalizeTweet t).data.getLast? = some '…' ∧
      finalizeTweet t = String.mk (t.data.take 279 ++ ['…'])) ∧
    (t.data.length ≤ 280 → finalizeTweet t = t) := by
  constructor
  · intro h
    have hft : finalizeTweet t = String.mk (t.data.take 279 ++ ['…']) := by
      unfold finalizeTweet clip_len
      rw [if_pos h, if_neg (by omega)]
    refine ⟨?_, ?_, hft⟩
    · rw [hft]
      show (t.data.take 279 ++ ['…']).length = 280
      rw [List.length_append, List.length_take, List.length_singleton]
      omega
    · rw [hft]
      show (t.data.take 279 ++ ['…']).getLast? = some '…'
      simp
  · intro h
    unfold finalizeTweet
    rw [if_neg (by omega)]

/-- Claim C5 witness: truncation at a 300-character draft and identity at a
short draft. -/
theorem claim_C5_truncation_witness :
    ((String.mk (List.replicate 300 'a')).data.length > 280 ∧
      (finalizeTweet (String.mk (List.replicate 300 'a'))).data.length = 280 ∧
      (finalizeTweet (String.mk (List.replicate 300 'a'))).data.getLast? = some '…' ∧
      finalizeTweet (String.mk (List.replicate 300 'a')) =
        String.mk ((String.mk (List.replicate 300 'a')).data.take 279 ++ ['…'])) ∧
    ("hi".data.length ≤ 280 ∧ finalizeTweet "hi" = "hi") :=
  ⟨⟨by show (List.replicate 300 'a').length > 280; rw [List.length_replicate]; decide,
    (claim_C5_truncation (String.mk (List.replicate 300 'a'))).1
      (by show (List.replicate 300 'a').length > 280; rw [List.length_replicate]; decide)⟩,
   ⟨by decide, (claim_C5_truncation "hi").2 (by decide)⟩⟩

/-- Every finalized tweet is at most 280 characters long. -/
theorem finalizeTweet_length_le (t : String) : (finalizeTweet t).data.length ≤ 280 := by
  unfold finalizeTweet clip_len
  by_cases h : t.data.length > 280
  · rw [if_pos h, if_neg (by omega)]
    show (t.data.take 279 ++ ['…']).length ≤ 280
    rw [List.length_append, List.length_take, List.length_singleton]
    omega
  · rw [if_neg h]
    omega

/-- Claim C10: every text passed to the publish call during the publish loop
has length at most 280 characters, whatever drafts the generator returns. -/
theorem claim_C10_publish_length (gen : Nat → String) (status : Nat → Nat)
    (k : Nat) (hashes : List String) :
    ∀ t ∈ (publishLoop gen status k hashes).posted, t.data.length ≤ 280 := by
  induction hashes generalizing k with
  | nil => intro t ht; simp [publishLoop] at ht
  | cons h rest ih =>
    intro t ht
    simp only [publishLoop] at ht
    by_cases hp : post_ok (status k)
    · rw [if_pos hp] at ht
      rcases List.mem_cons.mp ht with h1 | h2
      · subst h1; exact finalizeTweet_length_le _
      · exact ih (k + 1) t h2
    · rw [if_neg hp] at ht
      rcases List.mem_singleton.mp ht with rfl
      exact finalizeTweet_length_le _

/-- Claim C10 witness: the publish-loop trace at a concrete run. -/
theorem claim_C10_publish_length_witness :
    "hi" ∈ (publishLoop (fun _ => "hi") (fun _ => 200) 0 ["h"]).posted ∧
    "hi".data.length ≤ 280 :=
  ⟨by decide,
   claim_C10_publish_length (fun _ => "hi") (fun _ => 200) 0 ["h"] "hi" (by decide)⟩

/-- Invariant of the selection loop: starting strictly under budget, the
number of items picked never pushes the running count past the budget. -/
theorem selectGo_length_le (fp : Item → String) (seen : Finset String) (budget : Int) :
    ∀ (items : List Item) (count : Nat), (count : Int) < budget →
      ((selectGo fp seen budget count items).length : Int) + count ≤ budget := by
  intro items
  induction items with
  | nil => intro count h; simp [selectGo]; omega
  | cons it rest ih =>
    intro count h
    simp only [selectGo]
    by_cases hs : fp it ∈ seen
    · rw [if_pos hs]; exact ih count h
    · rw [if_neg hs]
      by_cases hb : ((count : Int) + 1) ≥ budget
      · rw [if_pos hb]; simp; omega
      · rw [if_neg hb]
        have := ih (count + 1) (by push_cast; omega)
        simp only [List.length_cons]
        push_cast at this ⊢
        omega

/-- Every item picked by the selection loop has an unseen fingerprint. -/
theorem selectGo_unseen (fp : Item → String) (seen : Finset String) (budget : Int) :
    ∀ (items : List Item) (count : Nat),
      ∀ it ∈ selectGo fp seen budget count items, fp it ∉ seen := by
  intro items
  induction items with
  | nil => intro count it hit; simp [selectGo] at hit
  | cons a rest ih =>
    intro count it hit
    simp only [selectGo] at hit
    by_cases hs : fp a ∈ seen
    · rw [if_pos hs] at hit; exact ih count it hit
    · rw [if_neg hs] at hit
      by_cases hb : ((count : Int) + 1) ≥ budget
      · rw [if_pos hb] at hit
        rcases List.mem_singleton.mp hit with rfl; exact hs
      · rw [if_neg hb] at hit
        rcases List.mem_cons.mp hit with rfl | h2
        · exact hs
        · exact ih (count + 1) it h2

/-- The selection loop's output is a sublist of its input (order preserved). -/
theorem selectGo_sublist (fp : Item → String) (seen : Finset String) (budget : Int) :
    ∀ (items : List Item) (count : Nat),
      (selectGo fp seen budget count items).Sublist items := by
  intro items
  induction items with
  | nil => intro count; simp [selectGo]
  | cons a rest ih =>
    intro count
    simp only [selectGo]
    by_cases hs : fp a ∈ seen
    · rw [if_pos hs]; exact (ih count).cons a
    · rw [if_neg hs]
      by_cases hb : ((count : Int) + 1) ≥ budget
      · rw [if_pos hb]
        exact (List.nil_sublist rest).cons₂ a
      · rw [if_neg hb]
        exact (ih (count + 1)).cons₂ a

/-- Once the selection loop has met the budget, later candidates are never
examined: appending further candidates leaves the output unchanged. -/
theorem selectGo_reached_append (fp : Item → String) (seen : Finset String) (budget : Int) :
    ∀ (items : List Item) (count : Nat), (count : Int) < budget →
      ((selectGo fp seen budget count items).length : Int) + count ≥ budget →
      ∀ ds : List Item,
        selectGo fp seen budget count (items ++ ds) = selectGo fp seen budget count items := by
  intro items
  induction items with
  | nil =>
    intro count h hlen ds
    simp [selectGo] at hlen
    omega
  | cons a rest ih =>
    intro count h hlen ds
    by_cases hs : fp a ∈ seen
    · simp only [selectGo, if_pos hs] at hlen
      simp only [List.cons_append, selectGo, if_pos hs]
      exact ih count h hlen ds
    · by_cases hb : ((count : Int) + 1) ≥ budget
      · simp only [List.cons_append, selectGo, if_neg hs, if_pos hb]
      · simp only [selectGo, if_neg hs, if_neg hb, List.length_cons] at hlen
        simp only [List.cons_append, selectGo, if_neg hs, if_neg hb]
        have h2 : ((selectGo fp seen budget (count + 1) rest).length : Int) + (count + 1) ≥
            budget := by
          push_cast at hlen ⊢; omega
        exact congrArg (List.cons a) (ih (count + 1) (by push_cast; omega) h2 ds)

/-- With a non-positive budget the break fires at the first picked item, so
the loop returns the first unseen candidate alone. -/
theorem selectGo_nonpos (fp : Item → String) (seen : Finset String) (budget : Int)
    (hb : budget ≤ 0) :
    ∀ (items : List Item) (count : Nat),
      selectGo fp seen budget count items =
        (items.filter (fun it => decide (fp it ∉ seen))).take 1 := by
  intro items
  induction items with
  | nil => intro count; simp [selectGo]
  | cons a rest ih =>
    intro count
    by_cases hs : fp a ∈ seen
    · rw [List.filter_cons_of_neg (by simp [hs])]
      simp only [selectGo, if_pos hs]
      exact ih count
    · rw [List.filter_cons_of_pos (by simp [hs])]
      simp only [selectGo, if_neg hs, if_pos (show ((count : Int) + 1) ≥ budget by omega)]
      simp

/-- Claim C3 (amended to positive budgets): for every candidate list, seen
set and budget ≥ 1, selection returns at most `budget` candidates, all with
unseen fingerprints, in input order; once the budget is met, scanning stops
(further candidates do not change the output); and in the `[A, B, C]`
scenario with `A` seen, `B`, `C` unseen and budget 1, exactly `[B]` is
returned. -/
theorem claim_C3_selection (final_url sha : String → String) (seen : Finset String)
    (budget : Int) (items : List Item) (hb : 1 ≤ budget) :
    ((select final_url sha seen budget items).length : Int) ≤ budget ∧
    (∀ it ∈ select final_url sha seen budget items, sha (final_url it.link) ∉ seen) ∧
    (select final_url sha seen budget items).Sublist items ∧
    (((select final_url sha seen budget items).length : Int) = budget →
      ∀ ds : List Item, select final_url sha seen budget (items ++ ds) =
        select final_url sha seen budget items) ∧
    (∀ A B C : Item, sha (final_url A.link) ∈ seen → sha (final_url B.link) ∉ seen →
      sha (final_url C.link) ∉ seen → select final_url sha seen 1 [A, B, C] = [B]) := by
  refine ⟨?_, ?_, ?_, ?_, ?_⟩
  · have := selectGo_length_le (fun it => sha (final_url it.link)) seen budget items 0
      (by omega)
    simpa [select] using this
  · exact fun it hit => selectGo_unseen _ seen budget items 0 it hit
  · exact selectGo_sublist _ seen budget items 0
  · intro hlen ds
    have hlen' : ((selectGo (fun it => sha (final_url it.link)) seen budget 0 items).length :
        Int) = budget := hlen
    exact selectGo_reached_append _ seen budget items 0 (by omega) (by push_cast; omega) ds
  · intro A B C hA hB hC
    simp [select, selectGo, hA, hB]

/-- Claim C3 witness: the bundle of selection properties at a concrete seen
set, candidate list and budget. -/
theorem claim_C3_selection_witness :
    ((select id id {"a"} 1 [⟨"t", "s", "a"⟩, ⟨"t", "s", "b"⟩, ⟨"t", "s", "c"⟩]).length : Int) ≤ 1 ∧
    (∀ it ∈ select id id {"a"} 1 [⟨"t", "s", "a"⟩, ⟨"t", "s", "b"⟩, ⟨"t", "s", "c"⟩],
      id (id it.link) ∉ ({"a"} : Finset String)) ∧
    (select id id {"a"} 1 [⟨"t", "s", "a"⟩, ⟨"t", "s", "b"⟩, ⟨"t", "s", "c"⟩]).Sublist
      [⟨"t", "s", "a"⟩, ⟨"t", "s", "b"⟩, ⟨"t", "s", "c"⟩] ∧
    (((select id id {"a"} 1 [⟨"t", "s", "a"⟩, ⟨"t", "s", "b"⟩, ⟨"t", "s", "c"⟩]).length : Int) = 1 →
      ∀ ds : List Item, select id id {"a"} 1 ([⟨"t", "s", "a"⟩, ⟨"t", "s", "b"⟩, ⟨"t", "s", "c"⟩] ++ ds) =
        select id id {"a"} 1 [⟨"t", "s", "a"⟩, ⟨"t", "s", "b"⟩, ⟨"t", "s", "c"⟩]) ∧
    (∀ A B C : Item, id (id A.link) ∈ ({"a"} : Finset String) →
      id (id B.link) ∉ ({"a"} : Finset String) → id (id C.link) ∉ ({"a"} : Finset String) →
      select id id {"a"} 1 [A, B, C] = [B]) :=
  claim_C3_selection id id {"a"} 1 [⟨"t", "s", "a"⟩, ⟨"t", "s", "b"⟩, ⟨"t", "s", "c"⟩]
    (by decide)

/-- Claim C3 counterexample: with budget 0 and a single unseen candidate,
selection returns one candidate, so "at most `budget` candidates for every
integer budget" fails. -/
theorem claim_C3_counterexample :
    select id id ∅ 0 [⟨"t", "s", "l"⟩] = [⟨"t", "s", "l"⟩] ∧
    ¬ (((select id id ∅ 0 [⟨"t", "s", "l"⟩]).length : Int) ≤ 0) := by
  constructor
  · decide
  · decide

/-- Claim C8: no deduplication within a run — two candidates with the same
unseen fingerprint are both selected when the budget allows, because
membership is tested only against the seen set loaded at run start. -/
theorem claim_C8_no_intra_run_dedup (final_url sha : String → String)
    (seen : Finset String) (budget : Int) (c c' : Item)
    (hfp : sha (final_url c.link) = sha (final_url c'.link))
    (hunseen : sha (final_url c.link) ∉ seen) (hb : 2 ≤ budget) :
    select final_url sha seen budget [c, c'] = [c, c'] := by
  have hunseen' : sha (final_url c'.link) ∉ seen := hfp ▸ hunseen
  simp only [select, selectGo]
  rw [if_neg hunseen, if_neg (by omega : ¬ ((0 : Nat) : Int) + 1 ≥ budget), if_neg hunseen']
  by_cases hb2 : (((1 : Nat) : Int) + 1) ≥ budget
  · rw [if_pos hb2]
  · rw [if_neg hb2]

/-- Claim C8 witness: the same candidate appearing twice is selected twice. -/
theorem claim_C8_no_intra_run_dedup_witness :
    select id id ∅ 2 [⟨"t", "s", "l"⟩, ⟨"t", "s", "l"⟩] =
      [⟨"t", "s", "l"⟩, ⟨"t", "s", "l"⟩] :=
  claim_C8_no_intra_run_dedup id id ∅ 2 ⟨"t", "s", "l"⟩ ⟨"t", "s", "l"⟩ rfl
    (by decide) (by decide)

/-- Claim C9: with a non-positive budget, selection still returns the first
unseen candidate when one exists — the budget check runs only after a
candidate has been picked, so budget 0 selects one item, not none. -/
theorem claim_C9_nonpositive_budget (final_url sha : String → String)
    (seen : Finset String) (budget : Int) (items : List Item) (hb : budget ≤ 0) :
    select final_url sha seen budget items =
      (items.filter (fun it => decide (sha (final_url it.link) ∉ seen))).take 1 ∧
    ((∃ it ∈ items, sha (final_url it.link) ∉ seen) →
      (select final_url sha seen budget items).length = 1) := by
  have h := selectGo_nonpos (fun it => sha (final_url it.link)) seen budget hb items 0
  refine ⟨h, ?_⟩
  rintro ⟨it, hmem, hunseen⟩
  show (selectGo (fun it => sha (final_url it.link)) seen budget 0 items).length = 1
  rw [h, List.length_take]
  have : it ∈ items.filter (fun it => decide (sha (final_url it.link) ∉ seen)) :=
    List.mem_filter.mpr ⟨hmem, by simpa using hunseen⟩
  have hpos : 0 < (items.filter (fun it => decide (sha (final_url it.link) ∉ seen))).length :=
    List.length_pos.mpr (List.ne_nil_of_mem this)
  omega

/-- Claim C9 witness: budget 0 with one seen and one unseen candidate picks
exactly the unseen one. -/
theorem claim_C9_nonpositive_budget_witness :
    select id id {"a"} 0 [⟨"t", "s", "a"⟩, ⟨"t", "s", "b"⟩] =
      ([⟨"t", "s", "a"⟩, ⟨"t", "s", "b"⟩].filter
        (fun it : Item => decide (id (id it.link) ∉ ({"a"} : Finset String)))).take 1 ∧
    ((∃ it ∈ [(⟨"t", "s", "a"⟩ : Item), ⟨"t", "s", "b"⟩],
        id (id it.link) ∉ ({"a"} : Finset String)) →
      (select id id {"a"} 0 [⟨"t", "s", "a"⟩, ⟨"t", "s", "b"⟩]).length = 1) :=
  claim_C9_nonpositive_budget id id {"a"} 0 [⟨"t", "s", "a"⟩, ⟨"t", "s", "b"⟩] (by decide)

/-- Step lemma: a 429 response sleeps `5 * (attempt + 1)` and retries. -/
theorem runAttempts_rate (responses : Nat → Nat × String) (attempt n : Nat)
    (h : (responses attempt).1 = 429) :
    runAttempts responses attempt (n + 1) =
      ((runAttempts responses (attempt + 1) n).1,
        5 * (attempt + 1) :: (runAttempts responses (attempt + 1) n).2) := by
  simp [runAttempts, h]

/-- Step lemma: a non-429 error status raises immediately. -/
theorem runAttempts_fail (responses : Nat → Nat × String) (attempt n : Nat)
    (h9 : (responses attempt).1 ≠ 429) (h4 : 400 ≤ (responses attempt).1)
    (h5 : (responses attempt).1 ≤ 599) :
    runAttempts responses attempt (n + 1) = (Except.error (responses attempt).1, []) := by
  simp only [runAttempts]
  rw [if_neg h9, if_pos ⟨h4, h5⟩]

/-- Step lemma: a success status returns the stripped content. -/
theorem runAttempts_success (responses : Nat → Nat × String) (attempt n : Nat)
    (h : (responses attempt).1 < 400) :
    runAttempts responses attempt (n + 1) =
      (Except.ok (pyStrip (responses attempt).2), []) := by
  simp only [runAttempts]
  rw [if_neg (by omega), if_neg (by omega)]

/-- Claim C4: `call_openai` retries only on rate-limit (429) responses, up to
3 attempts total, sleeping `5 * attemptIndex` seconds before each retry (a
linearly increasing backoff); any other failure status propagates
immediately with no retry; with 429 on attempts 1 and 2 and success on
attempt 3 it returns attempt 3's content after two waits of increasing
duration; with 429 on all three attempts it raises 429 after three waits. -/
theorem claim_C4_retry_policy (responses : Nat → Nat × String) :
    (∀ st : Nat, (responses 0).1 = st → 400 ≤ st → st ≤ 599 → st ≠ 429 →
      call_openai responses = (Except.error st, [])) ∧
    ((responses 0).1 = 429 → ∀ st : Nat, (responses 1).1 = st → 400 ≤ st → st ≤ 599 →
      st ≠ 429 → call_openai responses = (Except.error st, [5])) ∧
    ((responses 0).1 = 429 → (responses 1).1 = 429 → (responses 2).1 < 400 →
      call_openai responses = (Except.ok (pyStrip (responses 2).2), [5, 10]) ∧ 5 < 10) ∧
    ((responses 0).1 = 429 → (responses 1).1 = 429 → (responses 2).1 = 429 →
      call_openai responses = (Except.error 429, [5, 10, 15])) := by
  refine ⟨?_, ?_, ?_, ?_⟩
  · intro st hst h4 h5 h9
    show runAttempts responses 0 3 = _
    rw [runAttempts_fail responses 0 2 (by omega) (by omega) (by omega), hst]
  · intro h0 st hst h4 h5 h9
    show runAttempts responses 0 3 = _
    rw [runAttempts_rate responses 0 2 h0,
      runAttempts_fail responses 1 1 (by omega) (by omega) (by omega), hst]
  · intro h0 h1 h2
    refine ⟨?_, by norm_num⟩
    show runAttempts responses 0 3 = _
    rw [runAttempts_rate responses 0 2 h0, runAttempts_rate responses 1 1 h1,
      runAttempts_success responses 2 0 h2]
  · intro h0 h1 h2
    show runAttempts responses 0 3 = _
    rw [runAttempts_rate responses 0 2 h0, runAttempts_rate responses 1 1 h1,
      runAttempts_rate responses 2 0 h2]
    simp only [runAttempts, h2]

/-- Claim C4 witness: 429 on the first two attempts, success on the third. -/
theorem claim_C4_retry_policy_witness :
    call_openai (fun i => if i = 0 then (429, "") else if i = 1 then (429, "") else
        (200, " hello ")) =
      (Except.ok (pyStrip ((fun i : Nat => if i = 0 then ((429 : Nat), "") else
        if i = 1 then (429, "") else (200, " hello ")) 2).2), [5, 10]) ∧ 5 < 10 :=
  ((claim_C4_retry_policy (fun i => if i = 0 then (429, "") else if i = 1 then (429, "")
      else (200, " hello "))).2.2.1 (by decide) (by decide) (by decide))

/-- The publish loop aborts (`completed = false`) at the first candidate
whose publish status is not a success, given all earlier ones succeeded. -/
theorem publishLoop_first_failure (gen : Nat → String) (status : Nat → Nat) :
    ∀ (hashes : List String) (k i : Nat), i < hashes.length →
      post_ok (status (k + i)) = false →
      (∀ j, j < i → post_ok (status (k + j)) = true) →
      (publishLoop gen status k hashes).completed = false := by
  intro hashes
  induction hashes with
  | nil => intro k i hi _ _; simp at hi
  | cons h rest ih =>
    intro k i hi hfail hok
    cases i with
    | zero =>
      have hk : post_ok (status k) = false := by simpa using hfail
      simp [publishLoop, hk]
    | succ i' =>
      have hk : post_ok (status k) = true := by simpa using hok 0 (Nat.succ_pos i')
      simp only [publishLoop, hk, if_true]
      exact ih (k + 1) i' (by simpa using hi)
        (by rw [show k + 1 + i' = k + (i' + 1) by omega]; exact hfail)
        (fun j hj => by
          rw [show k + 1 + j = k + (j + 1) by omega]
          exact hok (j + 1) (by omega))

/-- Claim C2: when the publish call for the `i`-th selected candidate
returns a non-success status (all earlier ones having succeeded), the run
aborts, `save_seen` is never invoked, the record file is unchanged, and in
particular no `save_seen` invocation carries that candidate's fingerprint. -/
theorem claim_C2_publish_failure (gen : Nat → String) (status : Nat → Nat)
    (hashes : List String) (file : Option (List String)) (i : Nat)
    (hi : i < hashes.length) (hfail : post_ok (status i) = false)
    (hok : ∀ j, j < i → post_ok (status j) = true) :
    (mainRun gen status hashes file).completed = false ∧
    (mainRun gen status hashes file).saves = [] ∧
    (mainRun gen status hashes file).file = file ∧
    ∀ l ∈ (mainRun gen status hashes file).saves, hashes.getD i "" ∉ l := by
  have hc : (publishLoop gen status 0 hashes).completed = false :=
    publishLoop_first_failure gen status hashes 0 i hi (by simpa using hfail)
      (fun j hj => by simpa using hok j hj)
  refine ⟨?_, ?_, ?_, ?_⟩ <;> simp [mainRun, hc]

/-- Claim C2 witness: second publish fails, nothing is appended. -/
theorem claim_C2_publish_failure_witness :
    (mainRun (fun _ => "x") (fun i => if i = 0 then 201 else 404) ["h0", "h1"]
      (some ["z"])).completed = false ∧
    (mainRun (fun _ => "x") (fun i => if i = 0 then 201 else 404) ["h0", "h1"]
      (some ["z"])).saves = [] ∧
    (mainRun (fun _ => "x") (fun i => if i = 0 then 201 else 404) ["h0", "h1"]
      (some ["z"])).file = some ["z"] ∧
    ∀ l ∈ (mainRun (fun _ => "x") (fun i => if i = 0 then 201 else 404) ["h0", "h1"]
      (some ["z"])).saves, ["h0", "h1"].getD 1 "" ∉ l :=
  claim_C2_publish_failure (fun _ => "x") (fun i => if i = 0 then 201 else 404)
    ["h0", "h1"] (some ["z"]) 1 (by decide) (by decide)
    (fun j hj => by
      have hj0 : j = 0 := Nat.lt_one_iff.mp hj
      subst hj0
      decide)

/-- Claim C1 counterexample: with two selected candidates where the first
publish succeeds and the second fails, the run aborts after publishing one
candidate, yet `save_seen` was never invoked and the published candidate's
fingerprint `"h0"` is not persisted in the record — refuting the claim that
each successful publish appends to the record immediately. -/
theorem claim_C1_counterexample :
    (mainRun (fun _ => "x") (fun i => if i = 0 then 200 else 500) ["h0", "h1"]
      (some [])).publishedCount = 1 ∧
    (mainRun (fun _ => "x") (fun i => if i = 0 then 200 else 500) ["h0", "h1"]
      (some [])).saves = [] ∧
    (mainRun (fun _ => "x") (fun i => if i = 0 then 200 else 500) ["h0", "h1"]
      (some [])).file = some [] ∧
    "h0" ∉ load_seen (mainRun (fun _ => "x") (fun i => if i = 0 then 200 else 500)
      ["h0", "h1"] (some [])).file := by
  refine ⟨by decide, by decide, by decide, by decide⟩

/-- Claim C1 (amended): the Seen-Set record is appended to at most once per
run — only after the whole publish loop completes, with exactly the
fingerprints published this run; if the run aborts mid-loop, `save_seen` is
never invoked and the record is unchanged, so even already-published
candidates remain eligible for reprocessing. -/
theorem claim_C1_amended (gen : Nat → String) (status : Nat → Nat)
    (hashes : List String) (file : Option (List String)) :
    (mainRun gen status hashes file).saves.length ≤ 1 ∧
    ((mainRun gen status hashes file).completed = false →
      (mainRun gen status hashes file).saves = [] ∧
      (mainRun gen status hashes file).file = file) ∧
    ((mainRun gen status hashes file).completed = true →
      (mainRun gen status hashes file).saves =
        (if (publishLoop gen status 0 hashes).newHashes = [] then []
         else [(publishLoop gen status 0 hashes).newHashes]) ∧
      (mainRun gen status hashes file).file =
        (if (publishLoop gen status 0 hashes).newHashes = [] then file
         else save_seen file (publishLoop gen status 0 hashes).newHashes)) := by
  by_cases hc : (publishLoop gen status 0 hashes).completed = true
  · by_cases hn : (publishLoop gen status 0 hashes).newHashes = []
    · refine ⟨?_, ?_, ?_⟩ <;> simp [mainRun, hc, hn]
    · refine ⟨?_, ?_, ?_⟩ <;> simp [mainRun, hc, hn]
  · have hc' : (publishLoop gen status 0 hashes).completed = false :=
      Bool.eq_false_iff.mpr (fun h => hc h)
    refine ⟨?_, ?_, ?_⟩ <;> simp [mainRun, hc']

/-- Claim C1 (amended) witness: one completed run with a publish, one
aborted run; the record is written once in the first and never in the
second. -/
theorem claim_C1_amended_witness :
    ((mainRun (fun _ => "x") (fun _ => 200) ["h0"] (some [])).saves =
        (if (publishLoop (fun _ => "x") (fun _ => 200) 0 ["h0"]).newHashes = [] then []
         else [(publishLoop (fun _ => "x") (fun _ => 200) 0 ["h0"]).newHashes]) ∧
      (mainRun (fun _ => "x") (fun _ => 200) ["h0"] (some [])).file =
        (if (publishLoop (fun _ => "x") (fun _ => 200) 0 ["h0"]).newHashes = [] then some []
         else save_seen (some []) (publishLoop (fun _ => "x") (fun _ => 200) 0 ["h0"]).newHashes)) ∧
    ((mainRun (fun _ => "x") (fun _ => 500) ["h0"] (some [])).saves = [] ∧
      (mainRun (fun _ => "x") (fun _ => 500) ["h0"] (some [])).file = some []) :=
  ⟨(claim_C1_amended (fun _ => "x") (fun _ => 200) ["h0"] (some [])).2.2 (by decide),
   (claim_C1_amended (fun _ => "x") (fun _ => 500) ["h0"] (some [])).2.1 (by decide)⟩

end ReiwaKawaraban
